import Mathlib

/-!
Shallow embedding of `Water_evaporated.py` (cooking water-evaporation
estimator) and proofs about it.

Python floats are modelled as real numbers (`ℝ`) in the estimator and as
rationals (`ℚ`) in the purely table-driven unit conversion / aggregation
helpers; Python strings are modelled as `String`, with `.strip()` /
`.lower()` re-implemented over `List Char` (ASCII case folding, which is
what the program's inputs exercise).  `None`-able values are `Option`.
-/

/-! ## Python string primitives -/

/-- Python `\s` whitespace class (ASCII): space, tab, newline, carriage
return, vertical tab, form feed. -/
def pyIsSpace (c : Char) : Bool :=
  c = ' ' ∨ c = '\t' ∨ c = '\n' ∨ c = '\r' ∨ c = Char.ofNat 11 ∨ c = Char.ofNat 12

/-- ASCII case folding of one character (Python `str.lower` restricted to
ASCII, which covers every string this program manipulates). -/
def pyLowerChar (c : Char) : Char :=
  if 65 ≤ c.toNat ∧ c.toNat ≤ 90 then Char.ofNat (c.toNat + 32) else c

/-- Python `str.strip()`: drop whitespace from both ends. -/
def pyStrip (cs : List Char) : List Char :=
  ((cs.dropWhile pyIsSpace).reverse.dropWhile pyIsSpace).reverse

/-- Python `s.strip().lower()` as used by the program, producing the
normalized character list. -/
def pyStripLower (s : String) : List Char :=
  (pyStrip s.data).map pyLowerChar

/-- Python `s.lower()` on a whole string, as a character list. -/
def pyLower (s : String) : List Char :=
  s.data.map pyLowerChar

/-- Substring test: does `pat` occur contiguously inside `s`?
(Python's `pat in s`.) -/
def containsSub (pat : List Char) : List Char → Bool
  | [] => pat.isEmpty
  | c :: cs => pat.isPrefixOf (c :: cs) || containsSub pat cs

/-! ## Regex fragments used by `_parse_minutes`

`re.search(r"(\d+)\s*X", text)` for a literal character `X`: scan left to
right; at the first position where a maximal digit run, optionally
followed by whitespace, is followed by `X`, return that digit run's value.
`re.search(r"(\d+)", text)`: value of the leftmost digit run. -/

/-- Numeric value of a digit run. -/
def digitsToNat (ds : List Char) : Nat :=
  ds.foldl (fun a c => a * 10 + (c.toNat - 48)) 0

/-- Try to match `(\d+)\s*X` anchored at the head of `cs`; on success
return the digit-run value. -/
def matchNumThen (x : Char) (cs : List Char) : Option Nat :=
  let ds := cs.takeWhile Char.isDigit
  if ds.isEmpty then none
  else
    match (cs.dropWhile Char.isDigit).dropWhile pyIsSpace with
    | c :: _ => if c = x then some (digitsToNat ds) else none
    | [] => none

/-- `re.search(r"(\d+)\s*X", ·)`: leftmost match of digits-ws-`X`. -/
def searchNumThen (x : Char) : List Char → Option Nat
  | [] => none
  | c :: cs =>
    match matchNumThen x (c :: cs) with
    | some n => some n
    | none => searchNumThen x cs

/-- `re.search(r"(\d+)", ·)`: value of the leftmost digit run. -/
def searchFirstNat : List Char → Option Nat
  | [] => none
  | c :: cs =>
    if c.isDigit then some (digitsToNat ((c :: cs).takeWhile Char.isDigit))
    else searchFirstNat cs

/-! ## `_parse_minutes` (src/Water_evaporated.py lines 38-56) -/

/-- `_parse_minutes`: extract minutes from '10 min', '1h 20m', '18', …
h/m compound pattern first, falling back to the first bare integer,
else 0. -/
def parseMinutes (s : String) : Nat :=
  if s = "" then 0
  else if (searchNumThen 'h' (pyLower s)).isSome || (searchNumThen 'm' (pyLower s)).isSome then
    (searchNumThen 'h' (pyLower s)).getD 0 * 60 + (searchNumThen 'm' (pyLower s)).getD 0
  else (searchFirstNat (pyLower s)).getD 0

/-! ## Ingredients: `_contains_water`, `_water_ml_from_item`, aggregation -/

/-- One entry of the recipe's `ingredients` array (already JSON-parsed,
per the program's precondition; `quantity` already numeric). -/
structure Ingredient where
  name : String
  quantity : ℚ
  unitStr : String
deriving DecidableEq

/-- `_contains_water` (lines 72-78): `"water" in name.strip().lower()`. -/
def containsWater (name : String) : Bool :=
  containsSub "water".data (pyStripLower name)

/-- `_water_ml_from_item` (lines 80-106): fixed unit table; unknown
units contribute 0. -/
def waterMlFromItem (item : Ingredient) : ℚ :=
  let u := pyStripLower item.unitStr
  if u = "".data ∨ u = "ml".data ∨ u = "g".data then item.quantity
  else if u = "cup".data then item.quantity * 240
  else if u = "tbsp".data ∨ u = "tablespoon".data then item.quantity * 15
  else if u = "tsp".data ∨ u = "teaspoon".data then item.quantity * 5
  else 0

/-- Spec-side unit table for comparison with `waterMlFromItem`
(amended: without the liter row, which the code does not implement);
input is the already-normalized (stripped, lowered) unit string. -/
def unitFactorSpec (u : List Char) : ℚ :=
  if u = "".data ∨ u = "ml".data ∨ u = "g".data then 1
  else if u = "cup".data then 240
  else if u = "tbsp".data ∨ u = "tablespoon".data then 15
  else if u = "tsp".data ∨ u = "teaspoon".data then 5
  else 0

/-- The ingredient aggregation loop (lines 224-228): sum the
ml-equivalents of the entries whose name contains "water". -/
def aggregateWaterMl (ingredients : List Ingredient) : ℚ :=
  ingredients.foldl
    (fun acc item => if containsWater item.name then acc + waterMlFromItem item else acc) 0

/-! ## Physics and empirical constants (lines 8-33) -/

noncomputable def SPECIFIC_HEAT_WATER : ℝ := 4186

noncomputable def LATENT_HEAT_WATER : ℝ := 2257000

noncomputable def INITIAL_TEMP_C : ℝ := 25

noncomputable def GENERIC_POWER_W : ℝ := 1500

noncomputable def GENERIC_EFFICIENCY : ℝ := 45 / 100

def ALLOWED_COOKING_METHODS : List String :=
  ["Boiling", "Steaming", "Pressure Cooking", "Slow Cooking"]

/-- `EVAPORATION_BASE.get`: per-method `(fraction, base_time)` pair,
`none` for an unknown method. -/
noncomputable def EVAPORATION_BASE (method : String) : Option (ℝ × ℝ) :=
  if method = "Boiling" then some (10 / 100, 10)
  else if method = "Steaming" then some (5 / 100, 10)
  else if method = "Pressure Cooking" then some (1 / 100, 10)
  else if method = "Slow Cooking" then some (8 / 100, 60)
  else none

/-- `PHASE_TEMP_BY_METHOD.get`: per-method phase (boiling) temperature,
`none` for an unknown method. -/
noncomputable def PHASE_TEMP_BY_METHOD (method : String) : Option ℝ :=
  if method = "Boiling" then some 100
  else if method = "Steaming" then some 100
  else if method = "Pressure Cooking" then some 105
  else if method = "Slow Cooking" then some 100
  else none

/-! ## The hybrid estimator (lines 108-180) -/

/-- `_temp_factor` (lines 108-118): clamp `(T-70)/(phase_temp-70)` to
`[0,1]` (with a `max(1e-9, ·)` guard on the denominator) and raise it to
the power `1.5`; `0` for a `None` temperature. -/
noncomputable def tempFactor (T_c : Option ℝ) (phase_temp : ℝ) : ℝ :=
  match T_c with
  | none => 0
  | some T =>
    let t := (T - 70) / max (1 / 10 ^ 9) (phase_temp - 70)
    max 0 (min 1 t) ^ ((3 : ℝ) / 2)

/-- Line 154: `cooking_temperature_c is not None and
cooking_temperature_c >= phase_temp - 1e-9`. -/
noncomputable def atOrAbovePhase (T_c : Option ℝ) (phase_temp : ℝ) : Bool :=
  match T_c with
  | none => false
  | some T => decide (phase_temp - 1 / 10 ^ 9 ≤ T)

/-- Physics cap block (lines 152-166): `0` below phase temperature;
otherwise the excess of the energy input over the sensible heat needed
to reach the phase temperature, divided by the latent heat (grams). -/
noncomputable def physicsCap
    (water_g phase_temp T_initial_C E_in_J : ℝ) (at_phase : Bool) : ℝ :=
  if at_phase then
    let deltaT_C := max 0 (phase_temp - T_initial_C)
    let Q_sensible_J := water_g / 1000 * SPECIFIC_HEAT_WATER * deltaT_C
    if E_in_J ≤ Q_sensible_J then 0
    else max 0 ((E_in_J - Q_sensible_J) / LATENT_HEAT_WATER * 1000)
  else 0

/-- Empirical limit block (lines 168-172): method fraction scaled by
time and by the temperature factor, clamped to `[0,1]`, times the water
mass. -/
noncomputable def empiricalMass
    (water_g fraction base_time cooking_time_min tf : ℝ) : ℝ :=
  water_g * max 0 (min 1 (fraction * (cooking_time_min / base_time) * tf))

/-- `calculate_evaporated_water_hybrid` (lines 123-180). -/
noncomputable def calculateEvaporatedWaterHybrid
    (water_ml : ℝ) (cooking_method : String) (cooking_time_min : ℝ)
    (cooking_temperature_c : Option ℝ)
    (power_W efficiency T_initial_C : ℝ) : ℝ :=
  if EVAPORATION_BASE cooking_method = none ∨ PHASE_TEMP_BY_METHOD cooking_method = none
      ∨ water_ml ≤ 0 ∨ cooking_time_min ≤ 0 ∨ power_W ≤ 0 ∨ efficiency ≤ 0 then 0
  else
    let base := (EVAPORATION_BASE cooking_method).getD (0, 1)
    let phase_temp := (PHASE_TEMP_BY_METHOD cooking_method).getD 0
    let at_phase := atOrAbovePhase cooking_temperature_c phase_temp
    let E_in_J := power_W * (cooking_time_min * 60) * efficiency
    let m_phys_evap_g := physicsCap water_ml phase_temp T_initial_C E_in_J at_phase
    let m_emp_evap_g :=
      empiricalMass water_ml base.1 base.2 cooking_time_min
        (tempFactor cooking_temperature_c phase_temp)
    let m_final_g :=
      if at_phase then min water_ml (min m_phys_evap_g m_emp_evap_g)
      else min water_ml m_emp_evap_g
    max 0 m_final_g

/-! ## Helper lemmas -/

theorem aggregateWaterMl_foldl (l : List Ingredient) (a : ℚ) :
    l.foldl
      (fun acc item => if containsWater item.name then acc + waterMlFromItem item else acc) a
      = a + ((l.filter fun item => containsWater item.name).map waterMlFromItem).sum := by
  induction l generalizing a with
  | nil => simp
  | cons x xs ih =>
    simp only [List.foldl_cons, List.filter_cons]
    cases hx : containsWater x.name <;> simp [hx, ih, add_assoc]

/-! ## Claims about the normalizer and aggregator -/

/-- Claim C8: `_parse_minutes` returns `hours*60 + minutes` whenever the
hour/minute pattern matches (this takes priority over any bare integer),
otherwise the first bare integer, otherwise 0; in particular
`"1h 20m" ↦ 80`, `"45 minutes" ↦ 45`, `"" ↦ 0`. -/
theorem parse_minutes_spec :
    (∀ s : String,
        ((searchNumThen 'h' (pyLower s)).isSome ∨ (searchNumThen 'm' (pyLower s)).isSome) →
        parseMinutes s =
          (searchNumThen 'h' (pyLower s)).getD 0 * 60 + (searchNumThen 'm' (pyLower s)).getD 0)
    ∧ (∀ s : String,
        searchNumThen 'h' (pyLower s) = none → searchNumThen 'm' (pyLower s) = none →
        parseMinutes s = (searchFirstNat (pyLower s)).getD 0)
    ∧ parseMinutes "1h 20m" = 80 ∧ parseMinutes "45 minutes" = 45 ∧ parseMinutes "" = 0 := by
  refine ⟨?_, ?_, by decide, by decide, by decide⟩
  · intro s hs
    by_cases h0 : s = ""
    · subst h0
      exfalso
      revert hs
      decide
    · unfold parseMinutes
      rw [if_neg h0, if_pos (by rcases hs with h | h <;> simp [h])]
  · intro s hh hm
    by_cases h0 : s = ""
    · subst h0
      decide
    · unfold parseMinutes
      rw [if_neg h0, if_neg (by simp [hh, hm])]

/-- Witness for C8: the h/m-pattern branch applied to a concrete input. -/
theorem parse_minutes_spec_witness :
    parseMinutes "1h" =
      (searchNumThen 'h' (pyLower "1h")).getD 0 * 60 + (searchNumThen 'm' (pyLower "1h")).getD 0 :=
  parse_minutes_spec.1 "1h" (Or.inl (by decide))

/-- Claim C2 (amended: the code has no liter row — `"l"`/liter-prefixed
units fall into the unrecognized case and contribute 0):
`_water_ml_from_item` multiplies the quantity by the fixed lookup factor
of the normalized unit, and `2 cup ↦ 480`, `500 ml ↦ 500`. -/
theorem water_ml_from_item_table :
    (∀ item : Ingredient,
        waterMlFromItem item = item.quantity * unitFactorSpec (pyStripLower item.unitStr))
    ∧ waterMlFromItem ⟨"Water", 2, "cup"⟩ = 480
    ∧ waterMlFromItem ⟨"Water", 500, "ml"⟩ = 500 := by
  refine ⟨?_, ?_, ?_⟩
  · intro item
    simp only [waterMlFromItem, unitFactorSpec]
    split_ifs <;> ring
  · simp only [waterMlFromItem]
    rw [if_neg (by decide), if_pos (by decide)]
    norm_num
  · simp only [waterMlFromItem]
    rw [if_pos (by decide)]

/-- Counterexample for C2 as stated: a liter unit is NOT converted at
×1000; the code ignores it (contributes 0). -/
theorem water_ml_from_item_liter_cex :
    waterMlFromItem ⟨"Water", 1, "l"⟩ ≠ 1 * 1000 := by
  simp only [waterMlFromItem]
  rw [if_neg (by decide), if_neg (by decide), if_neg (by decide), if_neg (by decide)]
  norm_num

/-- Claim C9: the aggregated water quantity is the sum of the
ml-equivalents of exactly the ingredients whose name contains "water"
(case-insensitively); it is 0 when no ingredient qualifies; and
`[Chicken Stock, Water 500 ml]` aggregates to 500. -/
theorem aggregate_water_spec :
    (∀ l : List Ingredient,
        aggregateWaterMl l =
          ((l.filter fun item => containsWater item.name).map waterMlFromItem).sum)
    ∧ (∀ l : List Ingredient, (∀ item ∈ l, containsWater item.name = false) →
        aggregateWaterMl l = 0)
    ∧ aggregateWaterMl [⟨"Chicken Stock", 1, "cup"⟩, ⟨"Water", 500, "ml"⟩] = 500 := by
  have key : ∀ l : List Ingredient,
      aggregateWaterMl l =
        ((l.filter fun item => containsWater item.name).map waterMlFromItem).sum := by
    intro l
    unfold aggregateWaterMl
    rw [aggregateWaterMl_foldl]
    ring
  refine ⟨key, ?_, ?_⟩
  · intro l hl
    rw [key, List.filter_eq_nil_iff.mpr (by simpa using hl)]
    rfl
  · rw [key]
    have : List.filter (fun item => containsWater item.name)
        [(⟨"Chicken Stock", 1, "cup"⟩ : Ingredient), ⟨"Water", 500, "ml"⟩] =
        [⟨"Water", 500, "ml"⟩] := by decide
    rw [this]
    simp only [List.map, List.sum_cons, List.sum_nil]
    rw [show waterMlFromItem ⟨"Water", 500, "ml"⟩ = 500 from water_ml_from_item_table.2.2]
    norm_num

/-- Witness for C9: a list with no qualifying entry aggregates to 0. -/
theorem aggregate_water_spec_witness :
    aggregateWaterMl [⟨"Chicken Stock", 1, "cup"⟩] = 0 :=
  aggregate_water_spec.2.1 _ (by decide)

/-! ## Helper lemmas about the estimator -/

theorem EVAPORATION_BASE_Boiling : EVAPORATION_BASE "Boiling" = some (10 / 100, 10) := by
  unfold EVAPORATION_BASE
  rw [if_pos rfl]

theorem PHASE_TEMP_Boiling : PHASE_TEMP_BY_METHOD "Boiling" = some 100 := by
  unfold PHASE_TEMP_BY_METHOD
  rw [if_pos rfl]

theorem EVAPORATION_BASE_pos (m : String) (b : ℝ × ℝ) (h : EVAPORATION_BASE m = some b) :
    0 ≤ b.1 ∧ 0 < b.2 := by
  unfold EVAPORATION_BASE at h
  split_ifs at h <;> simp only [Option.some.injEq] at h <;> rw [← h] <;> norm_num

theorem lookups_none_of_not_allowed (m : String) (h : m ∉ ALLOWED_COOKING_METHODS) :
    EVAPORATION_BASE m = none ∧ PHASE_TEMP_BY_METHOD m = none := by
  simp only [ALLOWED_COOKING_METHODS, List.mem_cons, List.not_mem_nil, or_false, not_or] at h
  obtain ⟨h1, h2, h3, h4⟩ := h
  unfold EVAPORATION_BASE PHASE_TEMP_BY_METHOD
  rw [if_neg h1, if_neg h2, if_neg h3, if_neg h4, if_neg h1, if_neg h2, if_neg h3, if_neg h4]
  exact ⟨rfl, rfl⟩

theorem tempFactor_nonneg (T_c : Option ℝ) (pt : ℝ) : 0 ≤ tempFactor T_c pt := by
  unfold tempFactor
  cases T_c
  · exact le_rfl
  · exact Real.rpow_nonneg (le_max_left _ _) _

theorem tempFactor_le_one (T_c : Option ℝ) (pt : ℝ) : tempFactor T_c pt ≤ 1 := by
  unfold tempFactor
  cases T_c
  · exact zero_le_one
  · exact Real.rpow_le_one (le_max_left _ _) (max_le zero_le_one (min_le_left _ _)) (by norm_num)

theorem physicsCap_nonneg (w pt t0 E : ℝ) (b : Bool) : 0 ≤ physicsCap w pt t0 E b := by
  simp only [physicsCap]
  split_ifs <;> first | exact le_rfl | exact le_max_left _ _

theorem physicsCap_mono (w pt t0 E1 E2 : ℝ) (b : Bool) (hE : E1 ≤ E2) :
    physicsCap w pt t0 E1 b ≤ physicsCap w pt t0 E2 b := by
  have hL : (0 : ℝ) < LATENT_HEAT_WATER := by norm_num [LATENT_HEAT_WATER]
  simp only [physicsCap]
  split_ifs with hb h1 h2
  · exact le_rfl
  · exact le_max_left _ _
  · linarith
  · refine max_le_max le_rfl ?_
    gcongr
  · exact le_rfl

theorem empiricalMass_nonneg (w fr bt d tf : ℝ) (hw : 0 ≤ w) :
    0 ≤ empiricalMass w fr bt d tf :=
  mul_nonneg hw (le_max_left _ _)

theorem empiricalMass_mono (w fr bt d1 d2 tf : ℝ) (hw : 0 ≤ w) (hfr : 0 ≤ fr)
    (hbt : 0 < bt) (htf : 0 ≤ tf) (hd : d1 ≤ d2) :
    empiricalMass w fr bt d1 tf ≤ empiricalMass w fr bt d2 tf := by
  unfold empiricalMass
  apply mul_le_mul_of_nonneg_left _ hw
  apply max_le_max le_rfl
  apply min_le_min le_rfl
  apply mul_le_mul_of_nonneg_right _ htf
  apply mul_le_mul_of_nonneg_left _ hfr
  exact div_le_div_of_nonneg_right hd hbt.le

/-- Unfolding of the estimator on a recognized method and strictly
positive water, duration, power and efficiency. -/
theorem hybrid_eq (w : ℝ) (m : String) (d : ℝ) (T_c : Option ℝ) (p e t0 : ℝ)
    (b : ℝ × ℝ) (pt : ℝ)
    (hb : EVAPORATION_BASE m = some b) (hp : PHASE_TEMP_BY_METHOD m = some pt)
    (hw : 0 < w) (hd : 0 < d) (hpo : 0 < p) (he : 0 < e) :
    calculateEvaporatedWaterHybrid w m d T_c p e t0 =
      max 0
        (if atOrAbovePhase T_c pt
         then min w (min (physicsCap w pt t0 (p * (d * 60) * e) (atOrAbovePhase T_c pt))
                         (empiricalMass w b.1 b.2 d (tempFactor T_c pt)))
         else min w (empiricalMass w b.1 b.2 d (tempFactor T_c pt))) := by
  have hg : ¬(EVAPORATION_BASE m = none ∨ PHASE_TEMP_BY_METHOD m = none
      ∨ w ≤ 0 ∨ d ≤ 0 ∨ p ≤ 0 ∨ e ≤ 0) := by
    push_neg
    exact ⟨by simp [hb], by simp [hp], hw, hd, hpo, he⟩
  unfold calculateEvaporatedWaterHybrid
  rw [if_neg hg, hb, hp]
  simp only [Option.getD_some]

/-- The estimator returns 0 whenever one of the numeric validity checks
fails. -/
theorem hybrid_reject (w : ℝ) (m : String) (d : ℝ) (T_c : Option ℝ) (p e t0 : ℝ)
    (h : w ≤ 0 ∨ d ≤ 0 ∨ p ≤ 0 ∨ e ≤ 0) :
    calculateEvaporatedWaterHybrid w m d T_c p e t0 = 0 := by
  unfold calculateEvaporatedWaterHybrid
  rw [if_pos (Or.inr (Or.inr h))]

/-- The estimator's result is never negative. -/
theorem hybrid_nonneg (w : ℝ) (m : String) (d : ℝ) (T_c : Option ℝ) (p e t0 : ℝ) :
    0 ≤ calculateEvaporatedWaterHybrid w m d T_c p e t0 := by
  simp only [calculateEvaporatedWaterHybrid]
  split_ifs <;> first | exact le_rfl | exact le_max_left _ _

/-- With an absent (`None`) temperature the estimator returns 0, for
every combination of the remaining arguments. -/
theorem hybrid_none_temp_aux (w : ℝ) (m : String) (d p e t0 : ℝ) :
    calculateEvaporatedWaterHybrid w m d none p e t0 = 0 := by
  simp only [calculateEvaporatedWaterHybrid]
  split_ifs with hguard hphase
  · rfl
  · exact absurd hphase (by simp [atOrAbovePhase])
  · push_neg at hguard
    obtain ⟨-, -, hw, -, -, -⟩ := hguard
    have hemp : ∀ fr bt : ℝ, empiricalMass w fr bt d (tempFactor none
        ((PHASE_TEMP_BY_METHOD m).getD 0)) = 0 := by
      intro fr bt
      simp [empiricalMass, tempFactor]
    rw [hemp, min_eq_right hw.le, max_self]

/-! ## Claims about the hybrid estimator -/

/-- Claim C1 (amended: for nonnegative `water_ml`; with a negative
`water_ml` the estimator returns 0, which lies above `water_ml`): the
result of `calculate_evaporated_water_hybrid` lies in `[0, water_ml]`,
so the evaporated mass never exceeds the initial water quantity. -/
theorem hybrid_result_in_range (w : ℝ) (m : String) (d : ℝ) (T_c : Option ℝ) (p e t0 : ℝ)
    (hw : 0 ≤ w) :
    calculateEvaporatedWaterHybrid w m d T_c p e t0 ∈ Set.Icc 0 w := by
  rw [Set.mem_Icc]
  refine ⟨hybrid_nonneg w m d T_c p e t0, ?_⟩
  simp only [calculateEvaporatedWaterHybrid]
  split_ifs
  · exact hw
  · exact max_le hw (min_le_left _ _)
  · exact max_le hw (min_le_left _ _)

/-- Witness for C1 at a concrete valid input. -/
theorem hybrid_result_in_range_witness :
    (0 : ℝ) ≤ 500 ∧
    calculateEvaporatedWaterHybrid 500 "Boiling" 12 (some 100) 1500 (45 / 100) 25 ∈
      Set.Icc (0 : ℝ) 500 :=
  ⟨by norm_num,
   hybrid_result_in_range 500 "Boiling" 12 (some 100) 1500 (45 / 100) 25 (by norm_num)⟩

/-- Counterexample for C1 as stated over arbitrary `water_ml`: at
`water_ml = -1` the estimator returns 0, which exceeds `water_ml`. -/
theorem hybrid_range_fails_for_negative_water :
    ¬ calculateEvaporatedWaterHybrid (-1) "Boiling" 10 (some 100) 1500 (45 / 100) 25 ≤ -1 := by
  rw [hybrid_reject (-1) "Boiling" 10 (some 100) 1500 (45 / 100) 25 (Or.inl (by norm_num))]
  norm_num

/-- Claim C6: the estimator returns 0 (without raising) whenever the
method is unrecognized, or water, duration, power or efficiency is
nonpositive, for every combination of the remaining arguments. -/
theorem hybrid_rejects_invalid (w : ℝ) (m : String) (d : ℝ) (T_c : Option ℝ) (p e t0 : ℝ)
    (h : m ∉ ALLOWED_COOKING_METHODS ∨ w ≤ 0 ∨ d ≤ 0 ∨ p ≤ 0 ∨ e ≤ 0) :
    calculateEvaporatedWaterHybrid w m d T_c p e t0 = 0 := by
  rcases h with h | h
  · obtain ⟨h1, -⟩ := lookups_none_of_not_allowed m h
    unfold calculateEvaporatedWaterHybrid
    rw [if_pos (Or.inl h1)]
  · exact hybrid_reject w m d T_c p e t0 h

/-- Witness for C6: an unrecognized method is rejected. -/
theorem hybrid_rejects_invalid_witness :
    ("Frying" ∉ ALLOWED_COOKING_METHODS ∨ (100 : ℝ) ≤ 0 ∨ (10 : ℝ) ≤ 0 ∨ (1500 : ℝ) ≤ 0 ∨
      (45 / 100 : ℝ) ≤ 0)
    ∧ calculateEvaporatedWaterHybrid 100 "Frying" 10 (some 100) 1500 (45 / 100) 25 = 0 :=
  ⟨Or.inl (by decide),
   hybrid_rejects_invalid 100 "Frying" 10 (some 100) 1500 (45 / 100) 25 (Or.inl (by decide))⟩

/-- Claim C10: with an absent (`None`) temperature the estimator returns
exactly 0 on every otherwise-valid input, rather than raising: the
at-or-above-phase test is false and the temperature factor is 0. -/
theorem hybrid_none_temperature_zero (w : ℝ) (m : String) (d p e t0 : ℝ)
    (hm : m ∈ ALLOWED_COOKING_METHODS) (hw : 0 < w) (hd : 0 < d) (hpo : 0 < p) (he : 0 < e) :
    calculateEvaporatedWaterHybrid w m d none p e t0 = 0 :=
  hybrid_none_temp_aux w m d p e t0

/-- Witness for C10 at a concrete otherwise-valid input. -/
theorem hybrid_none_temperature_zero_witness :
    "Boiling" ∈ ALLOWED_COOKING_METHODS ∧
    calculateEvaporatedWaterHybrid 500 "Boiling" 12 none 1500 (45 / 100) 25 = 0 :=
  ⟨by decide,
   hybrid_none_temperature_zero 500 "Boiling" 12 1500 (45 / 100) 25 (by decide)
     (by norm_num) (by norm_num) (by norm_num) (by norm_num)⟩

/-- Claim C7: the estimator is monotone in the duration, all other
arguments held fixed. -/
theorem hybrid_monotone_in_duration (w : ℝ) (m : String) (T_c : Option ℝ) (p e t0 d1 d2 : ℝ)
    (hd : d1 ≤ d2) :
    calculateEvaporatedWaterHybrid w m d1 T_c p e t0 ≤
      calculateEvaporatedWaterHybrid w m d2 T_c p e t0 := by
  rcases le_or_lt w 0 with hw | hw
  · rw [hybrid_reject w m d1 T_c p e t0 (Or.inl hw),
        hybrid_reject w m d2 T_c p e t0 (Or.inl hw)]
  rcases le_or_lt p 0 with hpo | hpo
  · rw [hybrid_reject w m d1 T_c p e t0 (Or.inr (Or.inr (Or.inl hpo))),
        hybrid_reject w m d2 T_c p e t0 (Or.inr (Or.inr (Or.inl hpo)))]
  rcases le_or_lt e 0 with he | he
  · rw [hybrid_reject w m d1 T_c p e t0 (Or.inr (Or.inr (Or.inr he))),
        hybrid_reject w m d2 T_c p e t0 (Or.inr (Or.inr (Or.inr he)))]
  rcases le_or_lt d1 0 with hd1 | hd1
  · rw [hybrid_reject w m d1 T_c p e t0 (Or.inr (Or.inl hd1))]
    exact hybrid_nonneg w m d2 T_c p e t0
  rcases hb : EVAPORATION_BASE m with _ | b
  · have hzero : ∀ dd : ℝ, calculateEvaporatedWaterHybrid w m dd T_c p e t0 = 0 := by
      intro dd
      unfold calculateEvaporatedWaterHybrid
      rw [if_pos (Or.inl hb)]
    rw [hzero d1, hzero d2]
  rcases hpt : PHASE_TEMP_BY_METHOD m with _ | pt
  · have hzero : ∀ dd : ℝ, calculateEvaporatedWaterHybrid w m dd T_c p e t0 = 0 := by
      intro dd
      unfold calculateEvaporatedWaterHybrid
      rw [if_pos (Or.inr (Or.inl hpt))]
    rw [hzero d1, hzero d2]
  have hd2 : 0 < d2 := lt_of_lt_of_le hd1 hd
  rw [hybrid_eq w m d1 T_c p e t0 b pt hb hpt hw hd1 hpo he,
      hybrid_eq w m d2 T_c p e t0 b pt hb hpt hw hd2 hpo he]
  obtain ⟨hfr, hbt⟩ := EVAPORATION_BASE_pos m b hb
  have htf : 0 ≤ tempFactor T_c pt := tempFactor_nonneg T_c pt
  have hE : p * (d1 * 60) * e ≤ p * (d2 * 60) * e :=
    mul_le_mul_of_nonneg_right
      (mul_le_mul_of_nonneg_left (by linarith) hpo.le) he.le
  have hemp := empiricalMass_mono w b.1 b.2 d1 d2 (tempFactor T_c pt) hw.le hfr hbt htf hd
  apply max_le_max le_rfl
  rcases Bool.eq_false_or_eq_true (atOrAbovePhase T_c pt) with hab | hab <;> rw [hab]
  · rw [if_pos rfl, if_pos rfl]
    exact min_le_min le_rfl
      (min_le_min (physicsCap_mono w pt t0 _ _ _ hE) hemp)
  · rw [if_neg (by simp), if_neg (by simp)]
    exact min_le_min le_rfl hemp

/-- Witness for C7 at concrete durations 5 and 10 minutes. -/
theorem hybrid_monotone_in_duration_witness :
    (5 : ℝ) ≤ 10 ∧
    calculateEvaporatedWaterHybrid 500 "Boiling" 5 (some 100) 1500 (45 / 100) 25 ≤
      calculateEvaporatedWaterHybrid 500 "Boiling" 10 (some 100) 1500 (45 / 100) 25 :=
  ⟨by norm_num,
   hybrid_monotone_in_duration 500 "Boiling" (some 100) 1500 (45 / 100) 25 5 10 (by norm_num)⟩

/-- Claim C3 (amended: "at or above the phase temperature" is the code's
test `temperature ≥ phase_temp - 1e-9`, so inputs within the 1e-9
tolerance below the phase temperature also take the physics-capped
branch): on valid inputs the at-or-above branch returns
`min(water, physics_cap, empirical)` and the below branch returns
`min(water, empirical)`. -/
theorem hybrid_merge_rule (w : ℝ) (m : String) (d : ℝ) (T_c : Option ℝ) (p e t0 : ℝ)
    (b : ℝ × ℝ) (pt : ℝ)
    (hb : EVAPORATION_BASE m = some b) (hp : PHASE_TEMP_BY_METHOD m = some pt)
    (hw : 0 < w) (hd : 0 < d) (hpo : 0 < p) (he : 0 < e) :
    (atOrAbovePhase T_c pt = true →
      calculateEvaporatedWaterHybrid w m d T_c p e t0 =
        min w (min (physicsCap w pt t0 (p * (d * 60) * e) (atOrAbovePhase T_c pt))
                   (empiricalMass w b.1 b.2 d (tempFactor T_c pt))))
    ∧ (atOrAbovePhase T_c pt = false →
      calculateEvaporatedWaterHybrid w m d T_c p e t0 =
        min w (empiricalMass w b.1 b.2 d (tempFactor T_c pt))) := by
  rw [hybrid_eq w m d T_c p e t0 b pt hb hp hw hd hpo he]
  constructor
  · intro hab
    rw [hab, if_pos rfl]
    exact max_eq_right (le_min hw.le
      (le_min (physicsCap_nonneg _ _ _ _ _) (empiricalMass_nonneg _ _ _ _ _ hw.le)))
  · intro hab
    rw [hab, if_neg (by simp)]
    exact max_eq_right (le_min hw.le (empiricalMass_nonneg _ _ _ _ _ hw.le))

/-- Witness for C3: the at-or-above branch at a concrete boiling input. -/
theorem hybrid_merge_rule_witness :
    atOrAbovePhase (some 100) 100 = true ∧
    calculateEvaporatedWaterHybrid 500 "Boiling" 12 (some 100) 1500 (45 / 100) 25 =
      min 500 (min (physicsCap 500 100 25 (1500 * (12 * 60) * (45 / 100))
                      (atOrAbovePhase (some 100) 100))
                   (empiricalMass 500 (10 / 100) 10 12 (tempFactor (some 100) 100))) := by
  have hab : atOrAbovePhase (some 100) 100 = true := by
    simp only [atOrAbovePhase, decide_eq_true_eq]
    norm_num
  exact ⟨hab,
    (hybrid_merge_rule 500 "Boiling" 12 (some 100) 1500 (45 / 100) 25 (10 / 100, 10) 100
      EVAPORATION_BASE_Boiling PHASE_TEMP_Boiling (by norm_num) (by norm_num) (by norm_num)
      (by norm_num)).1 hab⟩

/-- Counterexample for C3 as stated: at a temperature strictly below the
phase temperature but within the 1e-9 tolerance, the code still applies
the physics cap (here 0), so the result is 0 rather than the claimed
`min(water, empirical)`, which is positive. -/
theorem hybrid_merge_rule_cex :
    calculateEvaporatedWaterHybrid 10000 "Boiling" 1 (some (100 - 5 / 10 ^ 10)) 1500
        (45 / 100) 25 ≠
      min 10000 (empiricalMass 10000 (10 / 100) 10 1
        (tempFactor (some (100 - 5 / 10 ^ 10)) 100)) := by
  have hab : atOrAbovePhase (some (100 - 5 / 10 ^ 10)) 100 = true := by
    simp only [atOrAbovePhase, decide_eq_true_eq]
    norm_num
  have htfpos : 0 < tempFactor (some (100 - 5 / 10 ^ 10)) 100 := by
    simp only [tempFactor]
    apply Real.rpow_pos_of_pos
    rw [max_eq_right (by norm_num : (1 / 10 ^ 9 : ℝ) ≤ 100 - 70)]
    rw [min_eq_right (by norm_num), max_eq_right (by norm_num)]
    norm_num
  have htf1 : tempFactor (some (100 - 5 / 10 ^ 10)) 100 ≤ 1 := tempFactor_le_one _ _
  have hempval : empiricalMass 10000 (10 / 100) 10 1
      (tempFactor (some (100 - 5 / 10 ^ 10)) 100) =
      100 * tempFactor (some (100 - 5 / 10 ^ 10)) 100 := by
    unfold empiricalMass
    rw [min_eq_right (by nlinarith), max_eq_right (by nlinarith)]
    ring
  have hcap : physicsCap 10000 100 25 (1500 * (1 * 60) * (45 / 100)) true = 0 := by
    simp only [physicsCap]
    rw [if_pos trivial]
    rw [max_eq_right (by norm_num : (0 : ℝ) ≤ 100 - 25)]
    rw [if_pos (by norm_num [SPECIFIC_HEAT_WATER])]
  have hlhs : calculateEvaporatedWaterHybrid 10000 "Boiling" 1 (some (100 - 5 / 10 ^ 10))
      1500 (45 / 100) 25 = 0 := by
    rw [hybrid_eq 10000 "Boiling" 1 (some (100 - 5 / 10 ^ 10)) 1500 (45 / 100) 25
          (10 / 100, 10) 100 EVAPORATION_BASE_Boiling PHASE_TEMP_Boiling (by norm_num)
          (by norm_num) (by norm_num) (by norm_num),
        hab, if_pos rfl, hcap]
    rw [min_eq_left (empiricalMass_nonneg _ _ _ _ _ (by norm_num))]
    rw [min_eq_right (by norm_num : (0:ℝ) ≤ 10000), max_self]
  rw [hlhs, hempval]
  exact ne_of_lt (lt_min (by norm_num) (mul_pos (by norm_num) htfpos))

/-- Claim C4 (amended in two places forced by the code: "below the phase
temperature" is the code's `temperature < phase_temp - 1e-9`, and the
sensible-heat temperature difference is clamped,
`ΔT = max(0, phase_temp - initial_temp)`): the physics cap is 0 below
the (tolerance-adjusted) phase temperature; otherwise, with
`E = power * duration_seconds * efficiency` and
`Q = mass_kg * specific_heat * ΔT`, it is 0 when `E ≤ Q` and
`(E - Q) / latent_heat` in grams when `E > Q`. -/
theorem physics_cap_formula (w pt t0 p e d : ℝ) (T_c : Option ℝ) :
    (atOrAbovePhase T_c pt = false →
      physicsCap w pt t0 (p * (d * 60) * e) (atOrAbovePhase T_c pt) = 0)
    ∧ (atOrAbovePhase T_c pt = true →
        (p * (d * 60) * e ≤ w / 1000 * SPECIFIC_HEAT_WATER * max 0 (pt - t0) →
          physicsCap w pt t0 (p * (d * 60) * e) (atOrAbovePhase T_c pt) = 0)
        ∧ (w / 1000 * SPECIFIC_HEAT_WATER * max 0 (pt - t0) < p * (d * 60) * e →
          physicsCap w pt t0 (p * (d * 60) * e) (atOrAbovePhase T_c pt) =
            (p * (d * 60) * e - w / 1000 * SPECIFIC_HEAT_WATER * max 0 (pt - t0))
              / LATENT_HEAT_WATER * 1000)) := by
  have hL : (0 : ℝ) < LATENT_HEAT_WATER := by norm_num [LATENT_HEAT_WATER]
  refine ⟨?_, ?_⟩
  · intro hab
    rw [hab]
    simp [physicsCap]
  · intro hab
    rw [hab]
    constructor
    · intro hEQ
      simp only [physicsCap]
      rw [if_pos trivial, if_pos hEQ]
    · intro hQE
      simp only [physicsCap]
      rw [if_pos trivial, if_neg (not_le.mpr hQE)]
      exact max_eq_right (le_of_lt (mul_pos (div_pos (by linarith) hL) (by norm_num)))

/-- Witness for C4: the excess-energy branch at a concrete boiling input. -/
theorem physics_cap_formula_witness :
    atOrAbovePhase (some 100) 100 = true ∧
    ((500 : ℝ) / 1000 * SPECIFIC_HEAT_WATER * max 0 (100 - 25) < 1500 * (12 * 60) * (45 / 100)) ∧
    physicsCap 500 100 25 (1500 * (12 * 60) * (45 / 100)) (atOrAbovePhase (some 100) 100) =
      (1500 * (12 * 60) * (45 / 100) - 500 / 1000 * SPECIFIC_HEAT_WATER * max 0 (100 - 25))
        / LATENT_HEAT_WATER * 1000 := by
  have hab : atOrAbovePhase (some 100) 100 = true := by
    simp only [atOrAbovePhase, decide_eq_true_eq]
    norm_num
  have hlt : (500 : ℝ) / 1000 * SPECIFIC_HEAT_WATER * max 0 ((100 : ℝ) - 25) <
      1500 * (12 * 60) * (45 / 100) := by
    rw [max_eq_right (by norm_num : (0 : ℝ) ≤ 100 - 25)]
    norm_num [SPECIFIC_HEAT_WATER]
  exact ⟨hab, hlt, ((physics_cap_formula 500 100 25 1500 (45 / 100) 12 (some 100)).2 hab).2 hlt⟩

/-- Counterexample for C4 as stated, in both amended places: (i) at a
temperature strictly below the phase temperature (but within 1e-9) the
cap is not 0; (ii) with an initial temperature above the phase
temperature the cap uses `ΔT = 0`, not the claimed negative
`phase_temp - initial_temp`. -/
theorem physics_cap_formula_cex :
    (physicsCap 100 100 25 (1500 * (60 * 60) * (45 / 100))
        (atOrAbovePhase (some (100 - 5 / 10 ^ 10)) 100) ≠ 0)
    ∧ (physicsCap 1000 100 200 (1500 * (1 * 60) * (45 / 100))
        (atOrAbovePhase (some 100) 100) ≠
      (1500 * (1 * 60) * (45 / 100) - 1000 / 1000 * SPECIFIC_HEAT_WATER * (100 - 200))
        / LATENT_HEAT_WATER * 1000) := by
  constructor
  · have hab : atOrAbovePhase (some (100 - 5 / 10 ^ 10)) 100 = true := by
      simp only [atOrAbovePhase, decide_eq_true_eq]
      norm_num
    rw [hab]
    simp only [physicsCap]
    rw [if_pos trivial, max_eq_right (by norm_num : (0 : ℝ) ≤ 100 - 25),
        if_neg (by norm_num [SPECIFIC_HEAT_WATER])]
    have hpos : (0 : ℝ) <
        (1500 * (60 * 60) * (45 / 100) - 100 / 1000 * SPECIFIC_HEAT_WATER * (100 - 25))
          / LATENT_HEAT_WATER * 1000 := by
      norm_num [SPECIFIC_HEAT_WATER, LATENT_HEAT_WATER]
    rw [max_eq_right hpos.le]
    exact ne_of_gt hpos
  · have hab : atOrAbovePhase (some 100) 100 = true := by
      simp only [atOrAbovePhase, decide_eq_true_eq]
      norm_num
    rw [hab]
    simp only [physicsCap]
    rw [if_pos trivial,
        show max (0 : ℝ) (100 - 200) = 0 from max_eq_left (by norm_num), mul_zero,
        if_neg (by norm_num), sub_zero]
    rw [max_eq_right (by norm_num [LATENT_HEAT_WATER] :
      (0 : ℝ) ≤ 1500 * (1 * 60) * (45 / 100) / LATENT_HEAT_WATER * 1000)]
    norm_num [SPECIFIC_HEAT_WATER, LATENT_HEAT_WATER]

/-- Claim C5 (amended: for phase temperatures at least `70 + 1e-9`; the
code guards the denominator with `max(1e-9, phase_temp - 70)`, so for
phase temperatures within 1e-9 of 70 the ramp is normalized by 1e-9
instead and does not reach 1 at the phase temperature): the temperature
factor equals `clamp01((T - 70)/(phase_temp - 70)) ^ 1.5`, is 0 for
`T ≤ 70`, is 1 for `T ≥ phase_temp`, and the empirical mass is
`water * clamp01(fraction * (duration / base_time) * tf)`. -/
theorem temp_factor_formula (pt : ℝ) (hpt : 70 + 1 / 10 ^ 9 ≤ pt) :
    (∀ T : ℝ, tempFactor (some T) pt =
        max 0 (min 1 ((T - 70) / (pt - 70))) ^ ((3 : ℝ) / 2))
    ∧ (∀ T : ℝ, T ≤ 70 → tempFactor (some T) pt = 0)
    ∧ (∀ T : ℝ, pt ≤ T → tempFactor (some T) pt = 1)
    ∧ (∀ w fr bt d tf : ℝ, empiricalMass w fr bt d tf =
        w * max 0 (min 1 (fr * (d / bt) * tf))) := by
  have hpos : (0 : ℝ) < pt - 70 := by
    have : (0 : ℝ) < 1 / 10 ^ 9 := by norm_num
    linarith
  have hden : max (1 / 10 ^ 9 : ℝ) (pt - 70) = pt - 70 := max_eq_right (by linarith)
  have key : ∀ T : ℝ, tempFactor (some T) pt =
      max 0 (min 1 ((T - 70) / (pt - 70))) ^ ((3 : ℝ) / 2) := by
    intro T
    simp only [tempFactor, hden]
  refine ⟨key, ?_, ?_, fun w fr bt d tf => rfl⟩
  · intro T hT
    rw [key T]
    have ht : (T - 70) / (pt - 70) ≤ 0 := by
      rw [div_le_iff hpos]
      nlinarith
    rw [min_eq_right (le_trans ht zero_le_one), max_eq_left ht,
        Real.zero_rpow (by norm_num)]
  · intro T hT
    rw [key T]
    have ht : (1 : ℝ) ≤ (T - 70) / (pt - 70) := (one_le_div hpos).mpr (by linarith)
    rw [min_eq_left ht, max_eq_right zero_le_one, Real.one_rpow]

/-- Witness for C5: at phase temperature 100, the factor vanishes at
50 °C. -/
theorem temp_factor_formula_witness :
    (70 + 1 / 10 ^ 9 ≤ (100 : ℝ)) ∧ tempFactor (some 50) 100 = 0 :=
  ⟨by norm_num, (temp_factor_formula 100 (by norm_num)).2.1 50 (by norm_num)⟩

/-- Counterexample for C5 as stated for every phase temperature above
70 °C: with `phase_temp = 70 + 5e-10` the code normalizes by the 1e-9
floor, so the factor at `T = phase_temp` is `(1/2)^1.5`, not 1. -/
theorem temp_factor_formula_cex :
    tempFactor (some (70 + 5 / 10 ^ 10)) (70 + 5 / 10 ^ 10) ≠ 1 := by
  simp only [tempFactor]
  rw [show (70 + 5 / 10 ^ 10 - 70 : ℝ) = 5 / 10 ^ 10 by ring]
  rw [show max (1 / 10 ^ 9 : ℝ) (5 / 10 ^ 10) = 1 / 10 ^ 9 from max_eq_left (by norm_num)]
  rw [show (5 / 10 ^ 10 : ℝ) / (1 / 10 ^ 9) = 1 / 2 by norm_num]
  rw [min_eq_right (by norm_num), max_eq_right (by norm_num)]
  exact ne_of_lt (Real.rpow_lt_one (by norm_num) (by norm_num) (by norm_num))
